import Mathlib

/-!
Shallow embedding of the resume-screening engine in `src/src/App.tsx`
(the file holds two near-identical variants of the component; their
scoring/matching logic is character-for-character identical, so one
embedding covers both).  JavaScript numbers are modelled by `ℚ`,
strings by Lean `String`, and the regular expressions used by the
source are expanded into explicit character-list scanners.  All text
processing is done by structural recursion over `List Char` so that
every definition evaluates on concrete inputs.
-/

namespace ATS

/-- JavaScript word character class `\w` = `[A-Za-z0-9_]`
(the source regexes are not Unicode-aware). -/
def isWordChar (c : Char) : Bool :=
  c.isAlpha || c.isDigit || c = '_'

/-- Lower-casing a character list (`String.prototype.toLowerCase` on
the ASCII inputs the engine handles). -/
def toLowerL (l : List Char) : List Char :=
  l.map Char.toLower

/-- Embeds `String.prototype.trim`: strip leading and trailing whitespace. -/
def trimL (l : List Char) : List Char :=
  ((l.dropWhile Char.isWhitespace).reverse.dropWhile Char.isWhitespace).reverse

/-- Embeds `str.split(sep)` where every character satisfying `p` is a
separator: the (possibly empty) pieces between separator characters. -/
def splitP (p : Char → Bool) : List Char → List (List Char)
  | [] => [[]]
  | c :: rest =>
    if p c then [] :: splitP p rest
    else
      match splitP p rest with
      | [] => [[c]]
      | piece :: pieces => (c :: piece) :: pieces

/-- Embeds `lowerResume.split(/\W+/).filter(Boolean)`: the maximal runs of
word characters of a character list.  Splitting at every non-word
character and dropping empty pieces is the same as splitting at runs. -/
def tokenizeL (l : List Char) : List (List Char) :=
  (splitP (fun c => !isWordChar c) l).filter (fun t => t ≠ [])

/-- Embeds `str.replace(/\W/g, '')`: drop every non-word character. -/
def stripNonWordL (l : List Char) : List Char :=
  l.filter isWordChar

/-- Substring scan: does `needle` occur as a contiguous block of
`hay`?  (`hay.includes(needle)`.) -/
def containsList (hay needle : List Char) : Bool :=
  match hay with
  | [] => needle.isEmpty
  | _ :: rest => needle.isPrefixOf hay || containsList rest needle

/-- Word-character test lifted to an optional character; `none` stands
for the edge of the string and is a non-word position. -/
def isWordCharOpt : Option Char → Bool
  | none => false
  | some c => isWordChar c

/-- A `\b` word boundary holds between two (possibly absent) characters
iff exactly one of them is a word character. -/
def boundaryAt (prev next : Option Char) : Bool :=
  isWordCharOpt prev != isWordCharOpt next

/-- Does `\b x \b` match at the current position, where `prev` is the
character just before the position and `hay` the rest of the input?
For the empty pattern this degenerates to `\b` at the position. -/
def wbHitHere (x : List Char) (prev : Option Char) (hay : List Char) : Bool :=
  match x with
  | [] => boundaryAt prev hay.head?
  | c :: cs =>
      x.isPrefixOf hay
        && boundaryAt prev (some c)
        && boundaryAt (some ((c :: cs).getLast (by simp))) (hay.drop x.length).head?

/-- Scan every position of `hay` for a `\b x \b` match. -/
def wbScan (x : List Char) (prev : Option Char) (hay : List Char) : Bool :=
  wbHitHere x prev hay ||
    match hay with
    | [] => false
    | c :: rest => wbScan x (some c) rest

/-- Embeds `new RegExp("\\b" + x + "\\b", "i").test(hay)` for a pattern `x`
made only of (lower-case) word characters, applied to an already
lower-cased `hay`: the case-insensitivity flag is then inert and the
pattern has no metacharacters, so the test is a pure word-boundary
search. -/
def wbTest (x : String) (hay : String) : Bool :=
  wbScan x.toList none hay.toList

/-- The fixed synonym table `keywordSynonyms`. -/
def keywordSynonyms (k : String) : List String :=
  if k = "javascript" then ["js"]
  else if k = "typescript" then ["ts"]
  else if k = "react" then ["react.js", "reactjs"]
  else if k = "node" then ["nodejs"]
  else if k = "accessibility" then ["a11y", "inclusive"]
  else []

/-- Embeds `findKeyword` from the source, abstracted over the component state
it closes over (the strictness knob and the resume text). -/
def findKeyword (keywordStrictness : ℚ) (resumeText : String)
    (keyword : String) : Bool :=
  let normalized := toLowerL (trimL keyword.toList)
  if normalized = [] then false
  else
    let lowerResume := toLowerL resumeText.toList
    let tokens := tokenizeL lowerResume
    let synonymHits :=
      (keywordSynonyms (String.mk normalized)).any
        (fun syn => containsList lowerResume syn.toList)
    let stripped := stripNonWordL normalized
    let tokenHit := tokens.contains stripped
    if 70 ≤ keywordStrictness then
      tokenHit || wbScan stripped none lowerResume
    else
      tokenHit || synonymHits || containsList lowerResume normalized

/-- Embeds `value.split(',').map(s => s.trim()).filter(Boolean)` — the
`splitKeywords` helper. -/
def splitKeywords (value : String) : List String :=
  (((splitP (· = ',') value.toList).map trimL).filter (fun l => l ≠ [])).map
    String.mk

/-- Embeds `text.split(/\s+/).filter(Boolean).length`: the number of maximal
non-whitespace runs. -/
def wordCount (text : String) : ℕ :=
  ((splitP Char.isWhitespace text.toList).filter (fun l => l ≠ [])).length

/-- Numeric value of a digit run (how `parseInt` reads the leading
digits of a year match). -/
def digitsToNat (ds : List Char) : ℕ :=
  ds.foldl (fun acc c => 10 * acc + (c.toNat - '0'.toNat)) 0

/-- Try the body of the regex `/(\d+)\+?\s+years?/i` at the current
position: on success return the parsed digit value together with the
total length of the matched substring.  Greedy matching needs no
backtracking for this pattern: after a maximal digit run the next
character is not a digit, so neither the optional `+` nor the
whitespace could instead consume a digit. -/
def yearMatchLen (l : List Char) : Option (ℕ × ℕ) :=
  let ds := l.takeWhile Char.isDigit
  if ds.isEmpty then none
  else
    let rest1 := l.drop ds.length
    let plusLen : ℕ := match rest1 with
      | '+' :: _ => 1
      | _ => 0
    let rest2 := rest1.drop plusLen
    let ws := rest2.takeWhile Char.isWhitespace
    if ws.isEmpty then none
    else
      let rest3 := rest2.drop ws.length
      if toLowerL (rest3.take 4) = ['y', 'e', 'a', 'r'] then
        let sLen : ℕ := match rest3.drop 4 with
          | c :: _ => if c.toLower = 's' then 1 else 0
          | [] => 0
        some (digitsToNat ds, ds.length + plusLen + ws.length + 4 + sLen)
      else none

/-- Fuel-indexed scanner for `/(\d+)\+?\s+years?/gi`: the global flag
resumes the scan right after each match (every match is at least six
characters long, so dropping `len - 1` of the tail is the same as
dropping `len` of the whole list).  Each step consumes at least one
character, so fuel equal to the input length never runs out; the fuel
only makes the recursion structural. -/
def yearValuesAux : ℕ → List Char → List ℕ
  | 0, _ => []
  | _, [] => []
  | fuel + 1, c :: rest =>
    match yearMatchLen (c :: rest) with
    | some (v, len) => v :: yearValuesAux fuel (rest.drop (len - 1))
    | none => yearValuesAux fuel rest

/-- All values captured by `text.match(/(\d+)\+?\s+years?/gi)`. -/
def yearValues (l : List Char) : List ℕ :=
  yearValuesAux l.length l

/-- JavaScript `Math.round` on a non-negative value: floor of `q + ½`
(rounding halves up). -/
def jsRound (q : ℚ) : ℤ :=
  ⌊q + 1 / 2⌋

/-- Embeds `detectYearsOfExperience` from the source.  When the regex has at
least one match, every match parses to a value (`parseInt` of a string
beginning with a digit is never `NaN`), so the filter keeps everything
and the maximum of the parsed values is returned; otherwise
`Math.max(1, Math.round(wordCount / 120))`. -/
def detectYearsOfExperience (text : String) : ℤ :=
  let values := yearValues text.toList
  if values ≠ [] then (values.foldl max 0 : ℕ)
  else max 1 (jsRound ((wordCount text : ℚ) / 120))

/-- The five section buckets of `parseSections`. -/
structure Buckets where
  summary : List String
  experience : List String
  education : List String
  skills : List String
  other : List String
deriving DecidableEq

/-- The initial bucket record (every bucket empty). -/
def initBuckets : Buckets :=
  ⟨[], [], [], [], []⟩

/-- Embeds `buckets[current] = [...(buckets[current] ?? []), clean]`: append a
line to the bucket named by the cursor string.  The cursor only ever
holds one of the five configured keys, and any other key would denote
a fresh bucket outside the record, so the catch-all arm lands in
`other`. -/
def appendTo (b : Buckets) (name : String) (line : String) : Buckets :=
  if name = "summary" then { b with summary := b.summary ++ [line] }
  else if name = "experience" then { b with experience := b.experience ++ [line] }
  else if name = "education" then { b with education := b.education ++ [line] }
  else if name = "skills" then { b with skills := b.skills ++ [line] }
  else { b with other := b.other ++ [line] }

/-- Embeds `/pat/i.test(clean)` for the all-lower-case section heading words:
case-insensitive substring containment. -/
def testI (pat : String) (clean : String) : Bool :=
  containsList (toLowerL clean.toList) pat.toList

/-- One iteration of the `lines.forEach` body of `parseSections`:
trim, drop blank lines, move the cursor when a heading word occurs in
the line, then append the line to the cursor's bucket. -/
def parseStep (acc : Buckets × String) (line : List Char) : Buckets × String :=
  let clean := String.mk (trimL line)
  if clean = "" then acc
  else
    let current :=
      if testI "experience" clean then "experience"
      else if testI "education" clean then "education"
      else if testI "skills" clean then "skills"
      else if testI "summary" clean then "summary"
      else acc.2
    (appendTo acc.1 current clean, current)

/-- Embeds `text.split(/\r?\n/)`: split at newlines, a carriage return
immediately before a newline belonging to the separator. -/
def splitLines (text : String) : List (List Char) :=
  (splitP (· = '\n') text.toList).map
    (fun l => if l.getLast? = some '\r' then l.dropLast else l)

/-- Embeds `parseSections` from the source: scan the lines with a section
cursor initialised to `"summary"`. -/
def parseSections (text : String) : Buckets :=
  ((splitLines text).foldl parseStep (initBuckets, "summary")).1

/-- The three enumerated format styles. -/
inductive FormatStyle where
  | plain
  | pdf
  | table
deriving DecidableEq

/-- Embeds `formatProfiles[style].penalty`. -/
def formatProfilesPenalty : FormatStyle → ℚ
  | .plain => 0
  | .pdf => 12
  | .table => 8

/-- The keys of `nameBiasProfiles` — the configured identity labels
(the UI only ever selects one of these). -/
inductive NameKey where
  | John
  | Demetrius
  | Kenya
deriving DecidableEq

/-- Embeds `nameBiasProfiles[name]`. -/
def nameBiasProfiles : NameKey → ℚ
  | .John => 1
  | .Demetrius => 0.11
  | .Kenya => 0.45

/-- Embeds `Object.keys(nameBiasProfiles)`, in declaration order. -/
def nameKeys : List NameKey :=
  [.John, .Demetrius, .Kenya]

/-- The `sectionWeights` record of the component state. -/
structure SectionWeights where
  education : ℚ
  experience : ℚ
  skills : ℚ
deriving DecidableEq

/-- A cohort of `demographicBase`: label, baseline pass rate and
sensitivity coefficient. -/
structure Cohort where
  label : String
  base : ℚ
  sensitivity : ℚ
deriving DecidableEq

/-- The fixed `demographicBase` table. -/
def demographicBase : List Cohort :=
  [⟨"White-sounding names", 85, 0.3⟩,
   ⟨"Black-sounding names", 9, 0.9⟩,
   ⟨"Female-coded names", 68, 0.5⟩,
   ⟨"Hispanic-coded names", 14, 0.7⟩]

/-- Embeds `clamp(value)` with the default bounds `0` and `100`. -/
def clamp (value : ℚ) : ℚ :=
  min 100 (max 0 value)

/-- The component state the scoring pipeline reads: the resume text
and every policy knob.  The source configures no knockout-phrase set
(its `ScoringPolicy` treats one as an optional extension that this
code does not implement), so no knockout field exists here. -/
structure AppState where
  resumeText : String
  selectedName : NameKey
  keywordStrictness : ℚ
  sectionWeights : SectionWeights
  minYears : ℚ
  requiredInput : String
  preferredInput : String
  formatStyle : FormatStyle
  passThreshold : ℚ
deriving DecidableEq

/-- The knockout phrases configured by the code: none.  The source has
no knockout mechanism at all, so the configured set is empty and every
condition of the form "some knockout phrase occurs in the text" is
vacuously false. -/
def knockoutPhrases : List String :=
  []

/-- Does some configured knockout phrase occur case-insensitively in
the resume text?  Always `false`, since no phrase is configured. -/
def knockoutHit (s : AppState) : Bool :=
  knockoutPhrases.any
    (fun p => containsList (toLowerL s.resumeText.toList) (toLowerL p.toList))

namespace AppState

/-- Embeds `requiredKeywords`. -/
def requiredKeywords (s : AppState) : List String :=
  splitKeywords s.requiredInput

/-- Embeds `preferredKeywords`. -/
def preferredKeywords (s : AppState) : List String :=
  splitKeywords s.preferredInput

/-- Embeds `requiredMatches`. -/
def requiredMatches (s : AppState) : List String :=
  s.requiredKeywords.filter (findKeyword s.keywordStrictness s.resumeText)

/-- Embeds `preferredMatches`. -/
def preferredMatches (s : AppState) : List String :=
  s.preferredKeywords.filter (findKeyword s.keywordStrictness s.resumeText)

/-- Embeds `wordCount` of the current resume text. -/
def wc (s : AppState) : ℕ :=
  wordCount s.resumeText

/-- Embeds `isShort = wordCount < 180`. -/
def isShort (s : AppState) : Bool :=
  s.wc < 180

/-- Embeds `yearsExperience`. -/
def yearsExperience (s : AppState) : ℤ :=
  detectYearsOfExperience s.resumeText

/-- Embeds `sectionWeightFactor`. -/
def sectionWeightFactor (s : AppState) : ℚ :=
  (s.sectionWeights.experience * 0.5 + s.sectionWeights.skills * 0.3 +
      s.sectionWeights.education * 0.2) / 100

/-- Embeds `requiredRatio` (`requiredKeywords.length ? matched / total : 1`). -/
def requiredRatio (s : AppState) : ℚ :=
  if s.requiredKeywords.length = 0 then 1
  else (s.requiredMatches.length : ℚ) / s.requiredKeywords.length

/-- Embeds `preferredRatio` (`preferredKeywords.length ? matched / total : 0.7`). -/
def preferredRatio (s : AppState) : ℚ :=
  if s.preferredKeywords.length = 0 then 0.7
  else (s.preferredMatches.length : ℚ) / s.preferredKeywords.length

/-- Embeds `strictnessModifier`. -/
def strictnessModifier (s : AppState) : ℚ :=
  1 - (s.keywordStrictness - 60) / 250

/-- Embeds `experienceScore`. -/
def experienceScore (s : AppState) : ℚ :=
  min 100 ((s.yearsExperience : ℚ) / max 1 s.minYears * 40)

/-- Embeds `baseScore`. -/
def baseScore (s : AppState) : ℚ :=
  clamp ((s.requiredRatio * 60 + s.preferredRatio * 25 + s.experienceScore +
      s.sectionWeightFactor * 15) * s.strictnessModifier)

/-- Embeds `formatPenalty`. -/
def formatPenalty (s : AppState) : ℚ :=
  formatProfilesPenalty s.formatStyle

/-- Embeds `shortPenalty`. -/
def shortPenalty (s : AppState) : ℚ :=
  if s.isShort then s.baseScore * 0.22 else 0

/-- Embeds `nameBias`. -/
def nameBias (s : AppState) : ℚ :=
  nameBiasProfiles s.selectedName

/-- Embeds `adjustedScore` after the three subtractions and the conditional
flat penalty for missing the minimum-years bar. -/
def adjustedScore (s : AppState) : ℚ :=
  s.baseScore * s.nameBias - s.formatPenalty - s.shortPenalty -
    (if (s.yearsExperience : ℚ) < s.minYears then 10 else 0)

/-- Embeds `finalScore = clamp(adjustedScore)`. -/
def finalScore (s : AppState) : ℚ :=
  clamp s.adjustedScore

end AppState

/-- The two decisions. -/
inductive Decision where
  | Pass
  | Reject
deriving DecidableEq

/-- Embeds `decision = finalScore >= passThreshold ? 'Pass' : 'Reject'`. -/
def decision (s : AppState) : Decision :=
  if s.passThreshold ≤ s.finalScore then .Pass else .Reject

/-- Embeds `fairnessDrag` for one cohort of `demographicStats`. -/
def fairnessDrag (s : AppState) (demo : Cohort) : ℚ :=
  s.formatPenalty * 0.8 +
    (if 70 < s.keywordStrictness then
      (s.keywordStrictness - 70) * demo.sensitivity * 0.2
     else 0) +
    (if s.isShort then 6 * demo.sensitivity else 0)

/-- The `adjusted` rate for one cohort of `demographicStats`. -/
def adjustedRate (s : AppState) (demo : Cohort) : ℚ :=
  clamp (demo.base - fairnessDrag s demo + (100 - s.passThreshold) * 0.2)

/-- Embeds `demographicStats`: each cohort paired with its projected adjusted
pass rate. -/
def demographicStats (s : AppState) : List (Cohort × ℚ) :=
  demographicBase.map (fun demo => (demo, adjustedRate s demo))

/-- The clamped (unrounded) comparator value for one identity label:
`clamp(baseScore * nameBiasProfiles[name] - formatPenalty - shortPenalty)`. -/
def comparatorScore (s : AppState) (name : NameKey) : ℚ :=
  clamp (s.baseScore * nameBiasProfiles name - s.formatPenalty - s.shortPenalty)

/-- Embeds `nameComparisons`: every configured label paired with
`Math.round(score)` of its comparator value. -/
def nameComparisons (s : AppState) : List (NameKey × ℤ) :=
  nameKeys.map (fun name => (name, jsRound (comparatorScore s name)))

/-- The un-clamped `setSectionWeights` update of the weight input
`onChange` handlers: the parsed numeric value is stored verbatim. -/
def setSectionWeight (prev : SectionWeights) (field : String) (v : ℚ) :
    SectionWeights :=
  if field = "education" then { prev with education := v }
  else if field = "experience" then { prev with experience := v }
  else { prev with skills := v }

/-! ### Concrete sample inputs used by witnesses and counterexamples -/

/-- A 240-word text with no digit-year mentions. -/
def longText240 : String :=
  String.intercalate " " (List.replicate 240 "word")

/-- A short-resume state with the default policy knobs. -/
def stateA : AppState :=
  ⟨"hi", .John, 70, ⟨20, 50, 30⟩, 3, "", "", .plain, 70⟩

/-- A long-resume state at maximum strictness. -/
def stateB : AppState :=
  ⟨longText240, .John, 100, ⟨20, 50, 30⟩, 3, "", "", .plain, 70⟩

/-- Like `stateA` but with a different (still short) resume text and the same
policy knobs. -/
def stateC : AppState :=
  ⟨"yo", .John, 70, ⟨20, 50, 30⟩, 3, "", "", .plain, 70⟩

/-- Like `stateA` but with a long resume text and the same policy knobs. -/
def stateD : AppState :=
  ⟨longText240, .John, 70, ⟨20, 50, 30⟩, 3, "", "", .plain, 70⟩

/-! ### Helper lemmas -/

theorem clamp_nonneg (v : ℚ) : 0 ≤ clamp v := by
  unfold clamp
  exact le_min (by norm_num) (le_max_left 0 v)

theorem clamp_le_hundred (v : ℚ) : clamp v ≤ 100 :=
  min_le_left 100 (max 0 v)

theorem clamp_eq_self {v : ℚ} (h1 : 0 ≤ v) (h2 : v ≤ 100) : clamp v = v := by
  unfold clamp
  rw [max_eq_right h1, min_eq_right h2]

theorem jsRound_eq {q : ℚ} {n : ℤ} (h1 : (n : ℚ) ≤ q + 1 / 2)
    (h2 : q + 1 / 2 < n + 1) : jsRound q = n := by
  unfold jsRound
  exact Int.floor_eq_iff.mpr ⟨h1, by exact_mod_cast h2⟩

/-! ### Theorems -/

/-- Claim C2: For every input state (hence for every policy), the final
score lies in [0,100] and every cohort's projected adjusted pass rate
lies in [0,100]. -/
theorem final_and_rates_in_range (s : AppState) :
    0 ≤ s.finalScore ∧ s.finalScore ≤ 100 ∧
      ∀ p ∈ demographicStats s, 0 ≤ p.2 ∧ p.2 ≤ 100 := by
  refine ⟨clamp_nonneg _, clamp_le_hundred _, ?_⟩
  intro p hp
  simp only [demographicStats, List.mem_map] at hp
  obtain ⟨demo, _, rfl⟩ := hp
  exact ⟨clamp_nonneg _, clamp_le_hundred _⟩

/-- Witness for C2 at a concrete state and a concrete cohort of its
projection. -/
theorem final_and_rates_in_range_witness :
    0 ≤ stateA.finalScore ∧ stateA.finalScore ≤ 100 ∧
      0 ≤ adjustedRate stateA ⟨"White-sounding names", 85, 0.3⟩ ∧
      adjustedRate stateA ⟨"White-sounding names", 85, 0.3⟩ ≤ 100 := by
  obtain ⟨h1, h2, h3⟩ := final_and_rates_in_range stateA
  refine ⟨h1, h2, ?_⟩
  exact h3 (⟨"White-sounding names", 85, 0.3⟩, adjustedRate stateA _)
    (by simp [demographicStats, demographicBase])

/-- Claim C1: The decision is `Pass` iff `finalScore ≥ passThreshold`
and no knockout phrase occurs case-insensitively in the resume text;
otherwise it is `Reject`.  The source configures no knockout phrases,
so the knockout conjunct quantifies over the empty list and is
vacuously true. -/
theorem decision_pass_iff (s : AppState) :
    (decision s = .Pass ↔
      s.passThreshold ≤ s.finalScore ∧
        ∀ p ∈ knockoutPhrases,
          containsList (toLowerL s.resumeText.toList) (toLowerL p.toList) =
            false) ∧
    (decision s = .Pass ∨ decision s = .Reject) := by
  constructor
  · unfold decision
    by_cases h : s.passThreshold ≤ s.finalScore
    · simp [h, knockoutPhrases]
    · simp [h, knockoutPhrases]
  · unfold decision
    by_cases h : s.passThreshold ≤ s.finalScore
    · exact .inl (if_pos h)
    · exact .inr (if_neg h)

/-- Claim C10: The section segmenter's `other` bucket is always empty:
the cursor starts at `"summary"` and is only ever reassigned to one of
the four named sections, so no line is appended to `other`. -/
theorem parseSections_other_empty (text : String) :
    (parseSections text).other = [] := by
  unfold parseSections
  have key : ∀ (lines : List (List Char)) (acc : Buckets × String),
      (acc.2 = "summary" ∨ acc.2 = "experience" ∨ acc.2 = "education" ∨
        acc.2 = "skills") →
      acc.1.other = [] →
      (lines.foldl parseStep acc).1.other = [] := by
    intro lines
    induction lines with
    | nil => intro acc _ h2; exact h2
    | cons line rest ih =>
      intro acc h1 h2
      simp only [List.foldl_cons]
      have step : ((parseStep acc line).2 = "summary" ∨
          (parseStep acc line).2 = "experience" ∨
          (parseStep acc line).2 = "education" ∨
          (parseStep acc line).2 = "skills") ∧
          (parseStep acc line).1.other = [] := by
        unfold parseStep
        by_cases hc : String.mk (trimL line) = ""
        · simp only [hc, if_pos rfl, if_true]
          exact ⟨h1, h2⟩
        · simp only [if_neg hc]
          set clean := String.mk (trimL line) with hclean
          by_cases he : testI "experience" clean
          · simp [he, appendTo, h2]
          · by_cases hd : testI "education" clean
            · simp [he, hd, appendTo, h2]
            · by_cases hs : testI "skills" clean
              · simp [he, hd, hs, appendTo, h2]
              · by_cases hm : testI "summary" clean
                · simp [he, hd, hs, hm, appendTo, h2]
                · simp only [he, hd, hs, hm, if_false, Bool.false_eq_true]
                  refine ⟨h1, ?_⟩
                  rcases h1 with h | h | h | h <;>
                    simp [h, appendTo, h2]
      exact ih _ step.1 step.2
  exact key (splitLines text) (initBuckets, "summary") (.inl rfl) rfl

/-- Claim C3: The base score is the clamp of the weighted combination of
the keyword ratios, the experience score and the section-weight
factor, scaled by the strictness modifier, with the documented
defaults for empty keyword lists. -/
theorem baseScore_formula (s : AppState) :
    s.baseScore =
      clamp
        (((if s.requiredKeywords.length = 0 then 1
            else (s.requiredMatches.length : ℚ) / s.requiredKeywords.length) *
              60 +
            (if s.preferredKeywords.length = 0 then 0.7
              else (s.preferredMatches.length : ℚ) /
                s.preferredKeywords.length) *
              25 +
            min 100
              ((s.yearsExperience : ℚ) / max 1 s.minYears * 40) +
            (s.sectionWeights.experience * 0.5 + s.sectionWeights.skills * 0.3 +
                s.sectionWeights.education * 0.2) / 100 * 15) *
          (1 - (s.keywordStrictness - 60) / 250)) ∧
    (s.requiredKeywords = [] → s.requiredRatio = 1) ∧
    (s.preferredKeywords = [] → s.preferredRatio = 0.7) := by
  refine ⟨rfl, ?_, ?_⟩
  · intro h
    simp [AppState.requiredRatio, h]
  · intro h
    simp [AppState.preferredRatio, h]

/-- Witness for C3 at a concrete state whose keyword inputs are both
empty. -/
theorem baseScore_formula_witness :
    stateA.requiredRatio = 1 ∧ stateA.preferredRatio = 0.7 :=
  ⟨(baseScore_formula stateA).2.1 (by decide),
   (baseScore_formula stateA).2.2 (by decide)⟩

/-- Claim C4: The adjusted score is `baseScore × biasFactor − formatPenalty
− shortPenalty`, minus a flat 10 exactly when the estimated years fall
below the minimum; the final score is its clamp; the short penalty is
`baseScore × 0.22` exactly when the word count is below 180; the format
penalties are plain = 0, table = 8, pdf = 12.  No knockout phrase is
configured, so the overriding-to-0 clause never fires (`knockoutHit`
is constantly `false`). -/
theorem adjustedScore_formula (s : AppState) :
    knockoutHit s = false ∧
    s.adjustedScore =
      s.baseScore * nameBiasProfiles s.selectedName - s.formatPenalty -
        s.shortPenalty -
        (if (s.yearsExperience : ℚ) < s.minYears then 10 else 0) ∧
    s.finalScore = clamp s.adjustedScore ∧
    s.shortPenalty =
      (if wordCount s.resumeText < 180 then s.baseScore * 0.22 else 0) ∧
    s.formatPenalty = formatProfilesPenalty s.formatStyle ∧
    formatProfilesPenalty .plain = 0 ∧ formatProfilesPenalty .table = 8 ∧
    formatProfilesPenalty .pdf = 12 := by
  refine ⟨rfl, rfl, rfl, ?_, rfl, rfl, rfl, rfl⟩
  by_cases h : wordCount s.resumeText < 180
  · simp [AppState.shortPenalty, AppState.isShort, AppState.wc, h]
  · simp [AppState.shortPenalty, AppState.isShort, AppState.wc, h]

/-- Claim C5: The keyword matcher: an empty (after trimming) keyword is
never found; at strictness ≥ 70 it is found iff the stripped keyword
is a token of the lower-cased resume or a word-boundary match of it
succeeds; below 70 it is found iff a token match succeeds, a synonym
of the normalized keyword is a literal substring, or the normalized
keyword itself is a literal substring.  At strictness 100, "react" is
found in "I used React." but not in "I used reaction timing."; at
strictness 40, "accessibility" is found in "a11y". -/
theorem findKeyword_spec :
    (∀ (strict : ℚ) (text kw : String),
      findKeyword strict text kw =
        (if toLowerL (trimL kw.toList) = [] then false
         else if 70 ≤ strict then
           (tokenizeL (toLowerL text.toList)).contains
               (stripNonWordL (toLowerL (trimL kw.toList))) ||
             wbScan (stripNonWordL (toLowerL (trimL kw.toList))) none
               (toLowerL text.toList)
         else
           (tokenizeL (toLowerL text.toList)).contains
               (stripNonWordL (toLowerL (trimL kw.toList))) ||
             (keywordSynonyms (String.mk (toLowerL (trimL kw.toList)))).any
               (fun syn => containsList (toLowerL text.toList) syn.toList) ||
             containsList (toLowerL text.toList)
               (toLowerL (trimL kw.toList)))) ∧
    findKeyword 100 "I used React." "react" = true ∧
    findKeyword 100 "I used reaction timing." "react" = false ∧
    findKeyword 40 "a11y" "accessibility" = true := by
  refine ⟨fun strict text kw => rfl, by decide, by decide, by decide⟩

/-! ### Evaluation helpers for the 240-word sample text -/

set_option maxRecDepth 200000 in
theorem wordCount_longText240 : wordCount longText240 = 240 := by decide

set_option maxRecDepth 200000 in
theorem yearValues_longText240 : yearValues longText240.toList = [] := by
  decide

theorem detect_longText240 : detectYearsOfExperience longText240 = 2 := by
  unfold detectYearsOfExperience
  simp only [yearValues_longText240, wordCount_longText240, ne_eq,
    not_true_eq_false, if_false]
  rw [show jsRound (((240 : ℕ) : ℚ) / 120) = 2 from
    jsRound_eq (by norm_num) (by norm_num)]
  exact max_eq_right (by norm_num)

/-- Claim C6 counterexample: The estimator does not always return an
integer ≥ 1: on the text "0 years" the primary path parses the value 0
and returns it. -/
theorem detectYears_zero_cex :
    detectYearsOfExperience "0 years" = 0 ∧
      ¬ 1 ≤ detectYearsOfExperience "0 years" := by
  constructor
  · decide
  · decide

/-- Claim C6 amended: The estimator returns the maximum of the parsed
leading integers of the `"<digits> [+]? year(s)"` matches when there is
at least one (which may be 0), and otherwise
`max(1, round(wordCount / 120))`, which is ≥ 1; "5 years of experience,
previously 3 years" yields 5 and a 240-word text without digit-year
mentions yields 2. -/
theorem detectYears_amended :
    (∀ text : String,
      detectYearsOfExperience text =
        (if yearValues text.toList ≠ [] then
          (((yearValues text.toList).foldl max 0 : ℕ) : ℤ)
         else max 1 (jsRound ((wordCount text : ℚ) / 120))) ∧
      (yearValues text.toList = [] → 1 ≤ detectYearsOfExperience text)) ∧
    detectYearsOfExperience "5 years of experience, previously 3 years" = 5 ∧
    detectYearsOfExperience longText240 = 2 := by
  refine ⟨fun text => ⟨rfl, fun h => ?_⟩, by decide, detect_longText240⟩
  unfold detectYearsOfExperience
  simp only [h, ne_eq, not_true_eq_false, if_false]
  exact le_max_left 1 _

/-- Witness for the amended C6 at a text with no year mention. -/
theorem detectYears_amended_witness :
    yearValues (String.toList "hello") = [] ∧
      1 ≤ detectYearsOfExperience "hello" :=
  ⟨by decide, (detectYears_amended.1 "hello").2 (by decide)⟩

/-! ### C7: the projector depends on the resume's length bucket -/

theorem adjustedRate_stateA_white :
    adjustedRate stateA ⟨"White-sounding names", 85, 0.3⟩ = 446 / 5 := by
  have hshort : stateA.isShort = true := by decide
  unfold adjustedRate fairnessDrag AppState.formatPenalty
  rw [hshort]
  norm_num [stateA, formatProfilesPenalty, clamp]

set_option maxRecDepth 200000 in
theorem adjustedRate_stateD_white :
    adjustedRate stateD ⟨"White-sounding names", 85, 0.3⟩ = 91 := by
  have hshort : stateD.isShort = false := by decide
  unfold adjustedRate fairnessDrag AppState.formatPenalty
  rw [hshort]
  norm_num [stateD, formatProfilesPenalty, clamp]

/-- Claim C7 counterexample: Two states with identical policy knobs but
different resume texts get different projected cohort rates: the
projector reads `isShort`, which is derived from the resume's word
count, so the adjusted rate is not a function of the policy knobs
alone. -/
theorem demographicStats_content_dependent :
    stateA.keywordStrictness = stateD.keywordStrictness ∧
    stateA.formatStyle = stateD.formatStyle ∧
    stateA.passThreshold = stateD.passThreshold ∧
    stateA.sectionWeights = stateD.sectionWeights ∧
    stateA.minYears = stateD.minYears ∧
    stateA.requiredInput = stateD.requiredInput ∧
    stateA.preferredInput = stateD.preferredInput ∧
    stateA.selectedName = stateD.selectedName ∧
    demographicStats stateA ≠ demographicStats stateD := by
  refine ⟨rfl, rfl, rfl, rfl, rfl, rfl, rfl, rfl, fun h => ?_⟩
  have h0 := congrArg (fun l => (l.headD (⟨"", 0, 0⟩, 0)).2) h
  simp only [demographicStats, demographicBase, List.map_cons,
    List.headD_cons] at h0
  rw [adjustedRate_stateA_white, adjustedRate_stateD_white] at h0
  norm_num at h0

/-- Claim C7 amended: The projected rates are a function of the policy
knobs (strictness, format style, pass threshold) together with the
resume's `isShort` flag: any two states agreeing on those four values
get identical projections, whatever their resume texts. -/
theorem demographicStats_policy_and_isShort (s1 s2 : AppState)
    (hstrict : s1.keywordStrictness = s2.keywordStrictness)
    (hfmt : s1.formatStyle = s2.formatStyle)
    (hthr : s1.passThreshold = s2.passThreshold)
    (hshort : s1.isShort = s2.isShort) :
    demographicStats s1 = demographicStats s2 := by
  unfold demographicStats
  congr 1
  funext demo
  unfold adjustedRate fairnessDrag AppState.formatPenalty
  rw [hstrict, hfmt, hthr, hshort]

/-- Witness for the amended C7: two concrete states with equal knobs
and different short texts project identically. -/
theorem demographicStats_policy_and_isShort_witness :
    demographicStats stateA = demographicStats stateC :=
  demographicStats_policy_and_isShort stateA stateC rfl rfl rfl (by decide)

/-! ### C8: the comparator rounds its displayed score -/

theorem requiredKeywords_stateB : stateB.requiredKeywords = [] := by decide

theorem preferredKeywords_stateB : stateB.preferredKeywords = [] := by decide

theorem yearsExperience_stateB : stateB.yearsExperience = 2 :=
  detect_longText240

set_option maxRecDepth 200000 in
theorem shortPenalty_stateB : stateB.shortPenalty = 0 := by
  have h : stateB.isShort = false := by decide
  unfold AppState.shortPenalty
  rw [h]
  simp

theorem baseScore_stateB : stateB.baseScore = 11536 / 125 := by
  have h1 : stateB.requiredRatio = 1 := by
    simp [AppState.requiredRatio, requiredKeywords_stateB]
  have h2 : stateB.preferredRatio = 0.7 := by
    simp [AppState.preferredRatio, preferredKeywords_stateB]
  have h3 : stateB.experienceScore = 80 / 3 := by
    unfold AppState.experienceScore
    rw [yearsExperience_stateB, show stateB.minYears = 3 from rfl,
      max_eq_right (by norm_num : (1 : ℚ) ≤ 3),
      min_eq_right (by norm_num : (2 : ℤ) / (3 : ℚ) * 40 ≤ 100)]
    norm_num
  have h4 : stateB.sectionWeightFactor = 19 / 50 := by
    unfold AppState.sectionWeightFactor
    norm_num [stateB]
  have h5 : stateB.strictnessModifier = 21 / 25 := by
    unfold AppState.strictnessModifier
    norm_num [stateB]
  unfold AppState.baseScore
  rw [h1, h2, h3, h4, h5,
    show ((1 : ℚ) * 60 + 0.7 * 25 + 80 / 3 + 19 / 50 * 15) * (21 / 25) =
      11536 / 125 by norm_num]
  exact clamp_eq_self (by norm_num) (by norm_num)

/-- Claim C8 counterexample: The comparator's published score for a label
is `Math.round` of the clamped product, not the clamped product itself:
at `stateB` the Kenya entry carries 42 while the clamp expression
equals 41.5296. -/
theorem nameComparisons_rounding_cex :
    (NameKey.Kenya, (42 : ℤ)) ∈ nameComparisons stateB ∧
    ((42 : ℤ) : ℚ) ≠
      clamp (stateB.baseScore * nameBiasProfiles .Kenya -
        stateB.formatPenalty - stateB.shortPenalty) := by
  have hval : clamp (stateB.baseScore * nameBiasProfiles .Kenya -
      stateB.formatPenalty - stateB.shortPenalty) = 25956 / 625 := by
    rw [baseScore_stateB, shortPenalty_stateB,
      show stateB.formatPenalty = 0 from rfl,
      show nameBiasProfiles .Kenya = 0.45 from rfl,
      show (11536 : ℚ) / 125 * 0.45 - 0 - 0 = 25956 / 625 by norm_num]
    exact clamp_eq_self (by norm_num) (by norm_num)
  constructor
  · have hround : jsRound (comparatorScore stateB .Kenya) = 42 := by
      unfold comparatorScore
      rw [hval]
      exact jsRound_eq (by norm_num) (by norm_num)
    simp only [nameComparisons, nameKeys, List.map_cons, List.map_nil]
    rw [hround]
    simp
  · rw [hval]
    norm_num

/-- Claim C8 amended: For every state, the comparator publishes, for
each configured label in order, `Math.round` of
`clamp(baseScore × biasFactor(label) − formatPenalty − shortPenalty)`,
computed from the current base score and penalties and omitting both
the flat minimum-years penalty and any knockout handling. -/
theorem nameComparisons_formula (s : AppState) :
    nameComparisons s =
      nameKeys.map (fun name =>
        (name,
          jsRound (clamp (s.baseScore * nameBiasProfiles name -
            s.formatPenalty - s.shortPenalty)))) :=
  rfl

/-! ### C9: numeric configuration is stored un-coerced -/

/-- The state holding the out-of-range experience weight 500. -/
def c9state : AppState :=
  ⟨"", .John, 70, ⟨20, 500, 30⟩, 3, "", "", .plain, 70⟩

/-- Claim C9: The weight `onChange` handler stores the parsed number
verbatim — no clamping to the declared [0,100] range — and the
out-of-range value then enters score arithmetic: with the experience
weight set to 500 the section-weight factor becomes 2.63, above the
maximum 1 attainable from in-range weights. -/
theorem sectionWeight_no_coercion :
    setSectionWeight ⟨20, 50, 30⟩ "experience" 500 = ⟨20, 500, 30⟩ ∧
    c9state.sectionWeightFactor = 263 / 100 ∧
    1 < c9state.sectionWeightFactor := by
  have h : c9state.sectionWeightFactor = 263 / 100 := by
    unfold AppState.sectionWeightFactor
    norm_num [c9state]
  exact ⟨rfl, h, by rw [h]; norm_num⟩

end ATS
